import Mathlib

/-!
Shallow embedding of the FHIR profile compiler `generate.py`.

The script compiles JSON "profile" documents into an in-memory class model
(dictionaries in Python, records here), computes per-profile import lists,
merges search parameters, and matches example JSON documents against the
compiled classes to produce flattened test assertions.

Configuration values (`classmap`, `natives`, `jsonmap`, `reservedmap`,
`starexpandtypes`, `subclassmap`, formatting helpers, ...) live in
`settings.py`, which is external configuration; they are modelled as fields
of a `Config` record and quantified over in the theorems.

Python dictionaries are modelled as association lists (`List (String × α)`),
Python sets as duplicate-free lists built with `insertSet`, and Python
`sorted` (a stable sort) as `List.insertionSort` (also stable).
-/

/-- The `skip_properties` list of `generate.py` (lines 24-29). -/
def skip_properties : List String :=
  ["extension", "modifierExtension", "language", "contained"]

/-- `d.get(key, default)` on a Python string-keyed dictionary. -/
def lookupD (m : List (String × String)) (key default : String) : String :=
  (m.lookup key).getD default

/-- Python `str.split(sep)` for a one-character separator, on the
character list: splitting an empty string yields one empty part, and a
trailing separator yields a trailing empty part. -/
def splitChar (sep : Char) : List Char → List (List Char)
  | [] => [[]]
  | c :: cs =>
    if c = sep then [] :: splitChar sep cs
    else match splitChar sep cs with
      | [] => [[c]]
      | w :: ws => (c :: w) :: ws

/-- Python `s.split(sep)` for a one-character separator. -/
def pySplit (s : String) (sep : Char) : List String :=
  (splitChar sep s.data).map String.mk

/-- Python `pat in s` on character lists. -/
def containsList (pat : List Char) : List Char → Bool
  | [] => pat.isPrefixOf []
  | c :: cs => pat.isPrefixOf (c :: cs) || containsList pat cs

/-- Python `pat in s` (substring containment). -/
def pyContains (s pat : String) : Bool := containsList pat.data s.data

/-- Left-to-right, non-overlapping replacement of `pat` by `rep`; the
fuel argument (instantiated with the length of the scanned list, an upper
bound on the number of steps) keeps the recursion structural. -/
def replaceFuel (pat rep : List Char) : Nat → List Char → List Char
  | _, [] => []
  | 0, cs => cs
  | fuel + 1, c :: cs =>
    if pat.isPrefixOf (c :: cs) then
      rep ++ replaceFuel pat rep fuel (List.drop (pat.length - 1) cs)
    else c :: replaceFuel pat rep fuel cs

/-- Python `s.replace(pat, rep)` for a nonempty pattern (every use in the
source has a nonempty pattern; an empty pattern is returned unchanged). -/
def pyReplace (s pat rep : String) : String :=
  if pat.data.isEmpty then s
  else String.mk (replaceFuel pat.data rep.data s.data.length s.data)

/-- Python `'.'.join(parts)`. -/
def joinSep (sep : String) : List String → String
  | [] => ""
  | [x] => x
  | x :: xs => x ++ sep ++ joinSep sep xs

/-- One ('type' entry) of an element definition: a `code` plus optional
`profile` reference target. -/
structure TypeEntry where
  code : String
  profile : Option String
deriving Repr, DecidableEq

/-- The `definition` dictionary of a profile element: documentation,
cardinalities and declared types. -/
structure ElemDefinition where
  short : String
  formal : Option String
  min : Nat
  max : String
  type : List TypeEntry
deriving Repr, DecidableEq

/-- One entry of a profile structure element list: a dotted path and an
optional `definition` dictionary (absent `definition` is skipped by the
compiler). -/
structure Element where
  path : String
  definition : Option ElemDefinition
deriving Repr, DecidableEq

/-- A compiled property (the `prop` dictionary built in `process_elem_type`,
lines 368-378). -/
structure Property where
  name : String
  orig_name : String
  short : String
  className : String
  jsonClass : String
  isArray : Bool
  isReferenceTo : Option String
  nonoptional : Bool
  isNative : Bool
deriving Repr, DecidableEq

/-- A compiled class (the `newklass` dictionary built in `parse_elem`,
lines 320-328, plus the keys set later in `process_profile`:
`resourceName`, `is_subclass`, overwritten `className` / `superclass` /
`short` / `formal`). -/
structure ClassModel where
  path : String
  className : String
  superclass : String
  short : Option String
  formal : Option String
  properties : List Property
  hasNonoptional : Bool
  resourceName : Option String
  is_subclass : Bool
deriving Repr, DecidableEq

/-- The external configuration from `settings.py`, together with the path
formatting helpers used by the unit test generator. -/
structure Config where
  classmap : List (String × String)
  natives : List String
  jsonmap : List (String × String)
  jsonmap_default : String
  reservedmap : List (String × String)
  starexpandtypes : List String
  subclassmap : List (String × String)
  resource_default_base : String
  search_generate_camelcase : Bool
  fmtKey : String → String → String
  fmtIndex : String → Nat → String
  fmtPrepare : String → String

/-- Python `s[:1].upper() + s[1:]`: capitalize the first character. -/
def capFirst (s : String) : String :=
  match s.data with
  | [] => ""
  | c :: cs => String.mk (c.toUpper :: cs)

/-- The property record built at generate.py lines 361-378 from an
already choice-renamed property name: reference normalization, class
mapping, json kind, cardinality flags, native flag. -/
def mkProp (cfg : Config) (name tp : String) (ref : Option String)
    (short : String) (n_min : Nat) (n_max : String) : Property :=
  let ref := ref.map (fun r =>
    let r := pyReplace r "http://hl7.org/fhir/profiles/" ""
    lookupD cfg.classmap r r)
  let mappedClass := lookupD cfg.classmap tp tp
  { name := lookupD cfg.reservedmap name name
    orig_name := name
    short := short
    className := mappedClass
    jsonClass := lookupD cfg.jsonmap mappedClass cfg.jsonmap_default
    isArray := n_max == "*"
    isReferenceTo := ref
    nonoptional := n_min != 0
    isNative := cfg.natives.contains mappedClass }

/-- The choice-property renaming of generate.py lines 354-359: when the
name carries the placeholder token, replace it with the capitalized
resolved type, mapping the reference type to the shorter alias first. -/
def choiceName (name tp : String) : String :=
  if pyContains name "[x]" then
    let kl := if tp = "ResourceReference" then "Resource" else tp
    pyReplace name "[x]" (capFirst kl)
  else name

/-- `klass['properties'].append(prop)` plus the `hasNonoptional` update
(generate.py lines 380-382). -/
def appendProp (klass : ClassModel) (p : Property) : ClassModel :=
  { klass with
    properties := klass.properties ++ [p]
    hasNonoptional := if p.nonoptional then true else klass.hasNonoptional }

/-- The non-wildcard body of `process_elem_type` (generate.py lines
354-382): choice renaming, then append the built property to the parent
class. -/
def process_elem_type_one (cfg : Config) (klass : ClassModel) (name tp : String)
    (ref : Option String) (short : String) (n_min : Nat) (n_max : String) : ClassModel :=
  appendProp klass (mkProp cfg (choiceName name tp) tp ref short n_min n_max)

/-- `process_elem_type` (generate.py lines 344-382).  The wildcard marker
expands to one recursive call per entry of `starexpandtypes` (lines
348-352).  The source recurses into `process_elem_type` itself and hence
would not terminate if the wildcard marker appeared inside
`starexpandtypes`; the embedding expands one level, which agrees with the
source whenever `"*" ∉ starexpandtypes` (true of the shipped settings),
the hypothesis carried by the theorems below. -/
def process_elem_type (cfg : Config) (klass : ClassModel) (name tp : String)
    (ref : Option String) (short : String) (n_min : Nat) (n_max : String) : ClassModel :=
  if tp = "*" then
    cfg.starexpandtypes.foldl
      (fun k exp_type => process_elem_type_one cfg k name exp_type ref short n_min n_max) klass
  else
    process_elem_type_one cfg klass name tp ref short n_min n_max

instance : DecidableRel (fun a b : Property => a.name ≤ b.name) :=
  fun a b => inferInstanceAs (Decidable (a.name ≤ b.name))

/-- The type deduplication of `parse_elem` (generate.py lines 308-314):
keep the first occurrence of every type code, preserving order (the `haz`
set). -/
def dedupTypes (types : List TypeEntry) : List TypeEntry :=
  (types.foldl
    (fun (st : List String × List TypeEntry) tp =>
      if tp.code ∈ st.1 then st else (st.1 ++ [tp.code], st.2 ++ [tp]))
    ([], [])).2

/-- `parse_elem` (generate.py lines 287-342).  Returns the updated parent
class (the source mutates `klass` in place) and the optional newly
synthesized inline class. -/
def parse_elem (cfg : Config) (path name : String) (d : ElemDefinition)
    (klass : Option ClassModel) : Option ClassModel × Option ClassModel :=
  let short := d.short
  let formal : Option String := match d.formal with
    | none => none
    | some f => if f ≠ "" ∧ short = f.dropRight 1 then none else some f
  let types := dedupTypes d.type
  let newklass : Option ClassModel :=
    if klass.isNone ∨ types.isEmpty then
      let className := String.join ((pySplit path '.').map capFirst)
      some { path := path
             className := className
             superclass := match types with
               | [] => cfg.resource_default_base
               | t :: _ => lookupD cfg.classmap t.code cfg.resource_default_base
             short := some short
             formal := formal
             properties := []
             hasNonoptional := false
             resourceName := none
             is_subclass := false }
    else none
  let types := if types.isEmpty then
      match newklass with
      | some nk => [{ code := nk.className, profile := none }]
      | none => types
    else types
  let parent : Option ClassModel := match klass with
    | none => none
    | some k =>
      let k := types.foldl
        (fun k tp => process_elem_type cfg k name tp.code tp.profile short d.min d.max) k
      some (if k.properties.length > 0 then
        { k with properties := List.insertionSort (fun a b : Property => a.name ≤ b.name) k.properties }
      else k)
  (parent, newklass)

/-- A search parameter entry of a profile structure (`name` and `type`;
the documentation field is unused by the compiler). -/
structure SParam where
  name : String
  typ : String
deriving Repr, DecidableEq

/-- One entry of a profile's `structure` array.  The source reads the
element list from `structure['snapshot']['element']` when a snapshot is
present and from `structure['element']` otherwise (lines 188-191); the
embedding carries the chosen list directly. -/
structure StructureEntry where
  type : String
  name : Option String
  elements : List Element
  searchParam : List SParam
deriving Repr, DecidableEq

/-- A profile document (the JSON fields `process_profile` reads). -/
structure Profile where
  resourceType : String
  name : Option String
  description : Option String
  requirements : Option String
  structureArr : List StructureEntry
deriving Repr, DecidableEq

/-- The element loop of `process_profile` (generate.py lines 193-229).
The source mutates class dictionaries shared between the `mapping` dict
and the `classes` list; the embedding keeps the class store in `classes`
and lets `mapping` associate a path with an index into that store, so an
in-place update is a `List.set`.  The `break` of the named-subclass branch
is modelled by returning without recursing. -/
def processElems (cfg : Config) (prof : Profile) (main : String) (is_subclass : Bool)
    (superclass : String) :
    List Element → List (String × Nat) → List ClassModel → List ClassModel
  | [], _, classes => classes
  | e :: rest, mapping, classes =>
    let parts := pySplit e.path '.'
    let name := parts.getLastD ""
    if name ∈ skip_properties then
      processElems cfg prof main is_subclass superclass rest mapping classes
    else
      match e.definition with
      | none => processElems cfg prof main is_subclass superclass rest mapping classes
      | some d =>
        let classpath := if parts.length > 1 then joinSep "." parts.dropLast
                         else parts.headD ""
        let kIdx := mapping.lookup classpath
        let k := kIdx.bind (fun i => classes.get? i)
        let pr := parse_elem cfg e.path name d k
        let classes := match kIdx, pr.1 with
          | some i, some ku => classes.set i ku
          | _, _ => classes
        match pr.2 with
        | none => processElems cfg prof main is_subclass superclass rest mapping classes
        | some nk =>
          if e.path = main then
            let nk := { nk with resourceName := some main, formal := prof.requirements }
            processElems cfg prof main is_subclass superclass rest
              ((nk.path, classes.length) :: mapping) (classes ++ [nk])
          else if is_subclass then
            let nk := { nk with
              className := main
              superclass := superclass
              is_subclass := true
              short := prof.name
              formal := prof.description }
            classes ++ [nk]
          else
            processElems cfg prof main is_subclass superclass rest
              ((nk.path, classes.length) :: mapping) (classes ++ [nk])

/-- One step of the import collection loop (generate.py lines 238-256):
the state is the `names` guard set and the `imports` list; a candidate
already in `names` is ignored, otherwise it is recorded and appended to
the imports unless it is native or defined inline in this profile. -/
def importStep (natives inline : List String) (st : List String × List String)
    (cand : String) : List String × List String :=
  if cand ∈ st.1 then st
  else (cand :: st.1,
        if cand ∉ natives ∧ cand ∉ inline then st.2 ++ [cand] else st.2)

/-- The candidate names one class contributes to the import scan, in
source order: its superclass, then per property the property class and
the optional reference target (generate.py lines 238-256). -/
def importCands (k : ClassModel) : List String :=
  k.superclass :: k.properties.flatMap (fun p => p.className :: p.isReferenceTo.toList)

instance : DecidableRel (fun a b : String => a ≤ b) :=
  fun a b => inferInstanceAs (Decidable (a ≤ b))

/-- The import resolution pass of `process_profile` (generate.py lines
231-258): scan all classes, drop natives, inline classes and duplicates,
and sort the remainder (Python `sorted`). -/
def computeImports (cfg : Config) (classes : List ClassModel) : List String :=
  let inline := classes.map (fun k => k.className)
  let st := classes.foldl
    (fun st k => (importCands k).foldl (importStep cfg.natives inline) st) ([], [])
  List.insertionSort (fun a b : String => a ≤ b) st.2

/-- `set.add` on a Python set modelled as a duplicate-free list. -/
def insertSet (x : String) (l : List String) : List String :=
  if x ∈ l then l else l ++ [x]

/-- Python `'{}{}'.format(n[0].upper(), n[1:])`-style camel casing used by
`_camelCase` (generate.py lines 573-589): the first segment is kept, every
later segment has its first character capitalized.  The source indexes
`n[0]` and would fail on an empty segment; `capFirst` returns the empty
string there instead. -/
def camelCase (s : String) (splitter : Char) : String :=
  match pySplit s splitter with
  | [] => ""
  | n :: rest => n ++ String.join (rest.map capFirst)

/-- Search parameter normalization of `process_profile` (generate.py lines
272-279): strip characters outside the identifier-safe set, then fold a
remaining separator by camel casing or underscore replacement. -/
def normalizeSearchName (cfg : Config) (name : String) : String :=
  let name := String.mk (name.toList.filter
    (fun c => c.isAlphanum || c == '_' || c == '-'))
  if pyContains name "-" then
    if cfg.search_generate_camelcase then camelCase name '-'
    else pyReplace name "-" "_"
  else name

/-- The search parameter collection of `process_profile` (generate.py
lines 266-282): per parameter with nonempty name and type, record the
encoded `name|orig|type` string in the `search_params` set and the
normalized name in the `supported` set. -/
def collectSearchParams (cfg : Config) (params : List SParam) :
    List String × List String :=
  params.foldl
    (fun st param =>
      if param.name ≠ "" ∧ param.typ ≠ "" then
        let orig := param.name
        let name := normalizeSearchName cfg param.name
        (insertSet (name ++ "|" ++ orig ++ "|" ++ param.typ) st.1, insertSet name st.2)
      else st)
    ([], [])

/-- The result tuple of `process_profile` (profile name, classes, the
computed import list, search parameter strings and supported names). -/
structure ProfileResult where
  main : String
  classes : List ClassModel
  imports : List String
  search_params : List String
  supported : List String
deriving Repr, DecidableEq

/-- `process_profile` (generate.py lines 137-284).  A wrong document
discriminator fails an assertion (fatal, `Except.error`); a missing or
empty structure list skips the profile (`none`). -/
def process_profile (cfg : Config) (prof : Profile) :
    Except String (Option ProfileResult) :=
  if prof.resourceType ≠ "Profile" then .error "assert failed: Profile resourceType"
  else
    match prof.structureArr with
    | [] => .ok none
    | structure1 :: _ =>
      let superclass := structure1.type
      let is_subclass := match structure1.name with
        | none => false
        | some n => n ≠ superclass
      let main := structure1.name.getD superclass
      let classes := processElems cfg prof main is_subclass superclass
        structure1.elements [] []
      let imports := computeImports cfg classes
      let sp := collectSearchParams cfg structure1.searchParam
      .ok (some { main := main, classes := classes, imports := imports,
                  search_params := sp.1, supported := sp.2 })

/-- The class registration loop of `parse` (generate.py lines 101-109):
a class name already present in the registry is diagnosed and discarded,
otherwise the class is added.  The registry is the `all_classes` dict,
modelled as an association list to which fresh names are appended. -/
def registerClasses (classes : List ClassModel) (reg : List (String × ClassModel)) :
    List (String × ClassModel) :=
  classes.foldl
    (fun r k => if (r.lookup k.className).isSome then r else r ++ [(k.className, k)])
    reg

/-- The whole-run registry accumulation: fold `registerClasses` over the
class lists of all compiled profiles, in compilation order. -/
def registerAll (css : List (List ClassModel)) : List (String × ClassModel) :=
  css.foldl (fun reg cs => registerClasses cs reg) []

/-- One merged search parameter extension entry (generate.py line 416). -/
structure SearchExtension where
  name : String
  original : String
  typ : String
deriving Repr, DecidableEq

/-- One iteration of the `process_search` merge loop (generate.py lines
409-416): decode the `name|orig|type` string by tuple unpacking, apply
the reserved-word remap, flag a collision when an already-merged entry
carries the same final name, and append the entry.  An entry that does
not split into exactly three parts — reachable, because the original
name and the type are encoded raw at line 281 and may contain the
separator — makes the tuple unpacking raise a ValueError, modelled as
`Except.error` (the too-few and too-many unpack errors are collapsed
into one error value). -/
def searchStep (cfg : Config) (st : List SearchExtension × List String)
    (param : String) : Except String (List SearchExtension × List String) :=
  match pySplit param '|' with
  | [name, orig, typ] =>
    let finalname := lookupD cfg.reservedmap name name
    let dupes := if st.1.any (fun d => finalname == d.name) then insertSet finalname st.2
                 else st.2
    .ok (st.1 ++ [{ name := finalname, original := orig, typ := typ }], dupes)
  | _ => .error "ValueError: param does not unpack into name, orig, typ"

/-- The success path of `searchStep`: what one merge step computes on an
entry that decodes into three parts.  On a malformed entry this total
variant returns the state unchanged, whereas `searchStep` errors; it is
used only to state what the merge produces on sets whose entries all
decode, via `foldlM_searchStep_ok`. -/
def searchStepOk (cfg : Config) (st : List SearchExtension × List String)
    (param : String) : List SearchExtension × List String :=
  match pySplit param '|' with
  | [name, orig, typ] =>
    let finalname := lookupD cfg.reservedmap name name
    let dupes := if st.1.any (fun d => finalname == d.name) then insertSet finalname st.2
                 else st.2
    (st.1 ++ [{ name := finalname, original := orig, typ := typ }], dupes)
  | _ => st

/-- `process_search` (generate.py lines 400-424): iterate the merged
parameter set in sorted order, producing the extensions table and the
collision set; the first entry that fails tuple unpacking aborts the
merge with the ValueError. -/
def process_search (cfg : Config) (params : List String) :
    Except String (List SearchExtension × List String) :=
  (List.insertionSort (fun a b : String => a ≤ b) params).foldlM (searchStep cfg) ([], [])

/-- A JSON-like value of an example document. -/
inductive JVal where
  | null : JVal
  | bool : Bool → JVal
  | num : Int → JVal
  | str : String → JVal
  | arr : List JVal → JVal
  | obj : List (String × JVal) → JVal
deriving Repr

/-- A flattened test assertion (generate.py line 548): path, declared
class and literal value. -/
structure TestAssertion where
  path : String
  klass : String
  value : JVal
deriving Repr

/-- The per-class name→property dictionary built at generate.py lines
503-505 (`props[cp['name']] = cp`, so a later property with the same name
wins): look the key up in the reversed property list. -/
def propsLookup (klass : ClassModel) (key : String) : Option Property :=
  klass.properties.reverse.find? (fun cp => cp.name == key)

mutual

/-- `handle_unittest_property` (generate.py lines 530-550).  The source
asserts `value is not None`, so a JSON null raises (modelled as
`Except.error`); a mapping recurses through the class registry via the
subclass redirection map; anything else becomes one assertion, strings
with embedded newlines escaped. -/
def handle_unittest_property (cfg : Config) (classes : List (String × ClassModel))
    (path : String) (value : JVal) (klass : String) :
    Except String (List TestAssertion) :=
  match value with
  | JVal.null => .error "assert failed: value is not None"
  | JVal.obj fields =>
    match classes.lookup (lookupD cfg.subclassmap klass klass) with
    | none => .ok []
    | some subklass => process_unittest_properties cfg classes fields subklass (some path)
  | JVal.str s => .ok [{ path := path, klass := klass, value := JVal.str (pyReplace s "\n" "\\n") }]
  | v => .ok [{ path := path, klass := klass, value := v }]

/-- `process_unittest_properties` (generate.py lines 497-527): walk the
fields of one mapping level, skipping unknown keys, recursing per array
element with an indexed path and into nested values otherwise. -/
def process_unittest_properties (cfg : Config) (classes : List (String × ClassModel))
    (fields : List (String × JVal)) (klass : ClassModel) (pfx : Option String) :
    Except String (List TestAssertion) :=
  match fields with
  | [] => .ok []
  | (key, val) :: rest =>
    match propsLookup klass key with
    | none => process_unittest_properties cfg classes rest klass pfx
    | some prop => do
      let propClass := prop.className
      let path := match pfx with
        | some p => cfg.fmtKey p key
        | none => key
      let here ← match val with
        | JVal.arr xs => handle_unittest_array cfg classes path xs 0 propClass
        | v => handle_unittest_property cfg classes (cfg.fmtPrepare path) v propClass
      let there ← process_unittest_properties cfg classes rest klass pfx
      pure (here ++ there)

/-- The indexed iteration over an array-valued property (generate.py
lines 518-523): recurse per element with path suffix `path[i]`. -/
def handle_unittest_array (cfg : Config) (classes : List (String × ClassModel))
    (path : String) (xs : List JVal) (i : Nat) (propClass : String) :
    Except String (List TestAssertion) :=
  match xs with
  | [] => .ok []
  | v :: vs => do
    let here ← handle_unittest_property cfg classes (cfg.fmtIndex path i) v propClass
    let there ← handle_unittest_array cfg classes path vs (i + 1) propClass
    pure (here ++ there)

end

instance : DecidableRel (fun a b : TestAssertion => a.path ≤ b.path) :=
  fun a b => inferInstanceAs (Decidable (a.path ≤ b.path))

/-- `d.get(key)` on a JSON object modelled as an association list. -/
def jvalLookup (doc : List (String × JVal)) (key : String) : Option JVal :=
  doc.lookup key

/-- `process_unittest` (generate.py lines 468-494): read the resource
type discriminator (asserting its presence), delete it, look up the
class (skipping the document when absent), then gather and sort the
assertions.  A non-string discriminator never matches a registry key. -/
def process_unittest (cfg : Config) (classes : List (String × ClassModel))
    (doc : List (String × JVal)) : Except String (Option (String × List TestAssertion)) :=
  match jvalLookup doc "resourceType" with
  | none => .error "assert failed: resourceType present"
  | some (JVal.str className) =>
    let utest := doc.filter (fun kv => kv.1 ≠ "resourceType")
    match classes.lookup className with
    | none => .ok none
    | some klass => do
      let tests ← process_unittest_properties cfg classes utest klass none
      pure (some (className,
        List.insertionSort (fun a b : TestAssertion => a.path ≤ b.path) tests))
  | some _ => .ok none

mutual

/-- Whether a JSON value contains no null anywhere. -/
def noNull : JVal → Bool
  | JVal.null => false
  | JVal.arr xs => noNullList xs
  | JVal.obj fields => noNullFields fields
  | _ => true

/-- `noNull` over every element of an array. -/
def noNullList : List JVal → Bool
  | [] => true
  | v :: vs => noNull v && noNullList vs

/-- `noNull` over every value of an object. -/
def noNullFields : List (String × JVal) → Bool
  | [] => true
  | kv :: rest => noNull kv.2 && noNullFields rest

end

/-- `Except` success as a Boolean. -/
def isOkb : Except String α → Bool
  | Except.ok _ => true
  | Except.error _ => false

/-- A small concrete configuration used to instantiate the theorems on
concrete inputs (the shape of `settings.py`: maps, native set, wildcard
expansion list, reserved words). -/
def sampleCfg : Config :=
  { classmap := [("string", "String"), ("ResourceReference", "ResourceReference")]
    natives := ["String", "Int"]
    jsonmap := [("String", "String")]
    jsonmap_default := "FHIRElement"
    reservedmap := [("for", "for_fhir")]
    starexpandtypes := ["boolean", "integer"]
    subclassmap := [("Age", "Quantity")]
    resource_default_base := "FHIRElement"
    search_generate_camelcase := true
    fmtKey := fun p k => p ++ "." ++ k
    fmtIndex := fun p i => p ++ "[" ++ toString i ++ "]"
    fmtPrepare := fun p => p }

/-- An element definition with no declared types. -/
def defEmpty : ElemDefinition :=
  { short := "s"
    formal := none
    min := 0
    max := "1"
    type := [] }

/-- A profile whose first element lacks its definition and whose second
element carries one. -/
def profC3 : Profile :=
  { resourceType := "Profile"
    name := none
    description := none
    requirements := some "req"
    structureArr := [{ type := "Patient"
                       name := none
                       elements := [{ path := "Patient", definition := none },
                                    { path := "Patient", definition := some defEmpty }]
                       searchParam := [] }] }

/-- The root element of the named-subclass sample profile. -/
def elemC8root : Element :=
  { path := "Quantity", definition := some defEmpty }

/-- A second element after the root of the named-subclass sample. -/
def elemC8units : Element :=
  { path := "Quantity.units"
    definition := some { short := "u"
                         formal := none
                         min := 0
                         max := "1"
                         type := [{ code := "string", profile := none }] } }

/-- A structure entry with explicit name `Age` distinct from its declared
type `Quantity`, and a second element after the root. -/
def structC8 : StructureEntry :=
  { type := "Quantity"
    name := some "Age"
    elements := [elemC8root, elemC8units]
    searchParam := [] }

/-- A named-subclass profile built from `structC8`. -/
def profC8 : Profile :=
  { resourceType := "Profile"
    name := some "AgeProfile"
    description := some "desc"
    requirements := none
    structureArr := [structC8] }

/-- A compiled class with one optional scalar property `a`. -/
def classX : ClassModel :=
  { path := "X"
    className := "X"
    superclass := "FHIRElement"
    short := none
    formal := none
    properties := [{ name := "a", orig_name := "a", short := "s", className := "string",
                     jsonClass := "String", isArray := false, isReferenceTo := none,
                     nonoptional := false, isNative := true }]
    hasNonoptional := false
    resourceName := none
    is_subclass := false }

/-- A compiled class with no properties and a non-native superclass. -/
def classW : ClassModel :=
  { path := "Age"
    className := "Age"
    superclass := "Quantity"
    short := none
    formal := none
    properties := []
    hasNonoptional := false
    resourceName := none
    is_subclass := true }

/-- A registry holding the single class `X`. -/
def regX : List (String × ClassModel) := [("X", classX)]

/-- An example document whose matched property `a` is null. -/
def docNull : List (String × JVal) :=
  [("resourceType", JVal.str "X"), ("a", JVal.null)]

/-- An example document containing no null values. -/
def docPlain : List (String × JVal) :=
  [("resourceType", JVal.str "X"), ("a", JVal.str "hi"), ("zz", JVal.bool true)]

/-- The invariant of the import collection fold: the import list is
duplicate-free and every collected name is guarded by `names` and is
neither native nor inline. -/
def importInv (natives inline : List String) (st : List String × List String) : Prop :=
  st.2.Nodup ∧ ∀ x ∈ st.2, x ∈ st.1 ∧ x ∉ natives ∧ x ∉ inline

/-- Looking a key up after appending one pair: the old binding wins, the
appended pair is found only for its own fresh key. -/
theorem lookup_append_single (r : List (String × ClassModel)) (m n : String) (k : ClassModel) :
    (r ++ [(m, k)]).lookup n =
      match r.lookup n with
      | some v => some v
      | none => if n == m then some k else none := by
  induction r with
  | nil =>
    cases h : n == m <;> simp [List.lookup, h]
  | cons a t ih =>
    by_cases h : n == a.1
    · simp [List.lookup, h]
    · simp [List.lookup, h] at ih ⊢
      exact ih

/-- Registering further classes never disturbs an existing binding. -/
theorem registerClasses_lookup_some (cs : List ClassModel) (r : List (String × ClassModel))
    (n : String) (v : ClassModel) (h : r.lookup n = some v) :
    (registerClasses cs r).lookup n = some v := by
  induction cs generalizing r with
  | nil => simpa [registerClasses] using h
  | cons k cs ih =>
    simp only [registerClasses, List.foldl_cons] at ih ⊢
    by_cases hk : (r.lookup k.className).isSome
    · simp only [hk, if_pos] at *
      exact ih r h
    · simp only [hk, if_neg, Bool.not_eq_true] at *
      apply ih
      rw [lookup_append_single]
      simp [h]

/-- On a name absent from the registry, registration makes the lookup
find the first class of the batch carrying that name. -/
theorem registerClasses_lookup_none (cs : List ClassModel) (r : List (String × ClassModel))
    (n : String) (h : r.lookup n = none) :
    (registerClasses cs r).lookup n = cs.find? (fun k => k.className == n) := by
  induction cs generalizing r with
  | nil => simpa [registerClasses] using h
  | cons k cs ih =>
    simp only [registerClasses, List.foldl_cons] at ih ⊢
    rw [List.find?]
    cases hkn : k.className == n with
    | true =>
      have hkn2 : k.className = n := by simpa using hkn
      have hr : r.lookup k.className = none := by rwa [hkn2]
      simp only [hr, Option.isSome_none, Bool.false_eq_true, if_neg, ite_false]
      apply registerClasses_lookup_some
      rw [lookup_append_single]
      simp [h, hkn2]
    | false =>
      have hkn2 : k.className ≠ n := by simpa using hkn
      by_cases hk : (r.lookup k.className).isSome
      · simp only [hk, if_pos, ite_true]
        exact ih r h
      · simp only [hk, if_neg, Bool.not_eq_true, ite_false]
        apply ih
        rw [lookup_append_single]
        have hne : ¬ n = k.className := fun hh => hkn2 hh.symm
        have hb : ¬ (n == k.className) = true := by simp [hne]
        simp [h, hb]

/-- Folding whole-profile registration over any starting registry. -/
theorem registerAll_aux (css : List (List ClassModel)) (r : List (String × ClassModel))
    (n : String) :
    (css.foldl (fun reg cs => registerClasses cs reg) r).lookup n =
      match r.lookup n with
      | some v => some v
      | none => css.flatten.find? (fun k => k.className == n) := by
  induction css generalizing r with
  | nil => cases h : r.lookup n <;> simp [h]
  | cons cs css ih =>
    simp only [List.foldl_cons, List.flatten_cons]
    rw [ih]
    cases h : r.lookup n with
    | some v => simp [registerClasses_lookup_some cs r n v h]
    | none =>
      rw [registerClasses_lookup_none cs r n h]
      cases hf : cs.find? (fun k => k.className == n) with
      | some v => simp [List.find?_append, hf]
      | none => simp [List.find?_append, hf]

/-- Claim C1: over every sequence of profile compilations feeding the
process-wide class registry, the lookup of a class name always returns
the first-registered ClassModel with that name, unchanged; every later
class carrying the same name is discarded and never overwrites it. -/
theorem claim_C1_registry_first_wins (css : List (List ClassModel)) (n : String) :
    (registerAll css).lookup n = css.flatten.find? (fun k => k.className == n) := by
  rw [registerAll, registerAll_aux]
  simp [List.lookup]

/-- Claim C10: an element whose path ends in one of the four fixed
skip names is skipped entirely by the profile compiler: it contributes
no property and synthesizes no class, whatever its definition holds. -/
theorem claim_C10_skip_properties (cfg : Config) (prof : Profile) (main : String)
    (isSub : Bool) (sup : String) (e : Element) (rest : List Element)
    (mapping : List (String × Nat)) (classes : List ClassModel)
    (h : (pySplit e.path '.').getLastD "" ∈ skip_properties) :
    processElems cfg prof main isSub sup (e :: rest) mapping classes
      = processElems cfg prof main isSub sup rest mapping classes := by
  simp only [List.getLastD_eq_getLast?] at h
  rw [processElems]
  simp [h]

/-- Witness for claim C10 at a concrete skipped element. -/
theorem claim_C10_witness :
    ((pySplit "Patient.extension" '.').getLastD "" ∈ skip_properties)
    ∧ processElems sampleCfg profC3 "Patient" false "Patient"
        [{ path := "Patient.extension", definition := some defEmpty }] [] []
      = processElems sampleCfg profC3 "Patient" false "Patient" [] [] [] :=
  ⟨by decide,
    claim_C10_skip_properties sampleCfg profC3 "Patient" false "Patient"
      { path := "Patient.extension", definition := some defEmpty } [] [] [] (by decide)⟩

/-- Claim C3 counterexample: the profile `profC3` has a first element
lacking its definition, yet compilation of the profile is not aborted —
its second element still produces a class, which is emitted. -/
theorem claim_C3_counterexample_profile_continues :
    process_profile sampleCfg profC3 = Except.ok (some
      { main := "Patient"
        classes := [{ path := "Patient"
                      className := "Patient"
                      superclass := "FHIRElement"
                      short := some "s"
                      formal := some "req"
                      properties := []
                      hasNonoptional := false
                      resourceName := some "Patient"
                      is_subclass := false }]
        imports := ["FHIRElement"]
        search_params := []
        supported := [] }) := rfl

/-- Claim C3 as amended: an element lacking its definition is skipped
with a diagnostic — that element alone contributes nothing, and the
remaining elements of the profile continue to compile (the source
`continue`s per element rather than aborting the profile). -/
theorem claim_C3_missing_definition_skips_element (cfg : Config) (prof : Profile)
    (main : String) (isSub : Bool) (sup : String) (e : Element) (rest : List Element)
    (mapping : List (String × Nat)) (classes : List ClassModel)
    (h : e.definition = none) :
    processElems cfg prof main isSub sup (e :: rest) mapping classes
      = processElems cfg prof main isSub sup rest mapping classes := by
  rw [processElems]
  by_cases hs : (pySplit e.path '.').getLast?.getD "" ∈ skip_properties
  · simp [hs]
  · simp [hs, h]

/-- Witness for the amended claim C3 at a concrete element. -/
theorem claim_C3_witness :
    (({ path := "Patient", definition := none } : Element).definition = none)
    ∧ processElems sampleCfg profC3 "Patient" false "Patient"
        [{ path := "Patient", definition := none }] [] []
      = processElems sampleCfg profC3 "Patient" false "Patient" [] [] [] :=
  ⟨rfl,
    claim_C3_missing_definition_skips_element sampleCfg profC3 "Patient" false "Patient"
      { path := "Patient", definition := none } [] [] [] rfl⟩

instance : IsTotal String (fun a b : String => a ≤ b) := ⟨fun a b => le_total a b⟩

instance : IsTrans String (fun a b : String => a ≤ b) := ⟨fun _ _ _ => le_trans⟩

/-- One import-collection step preserves the collection invariant. -/
theorem importStep_inv (natives inline : List String) (st : List String × List String)
    (cand : String) (h : importInv natives inline st) :
    importInv natives inline (importStep natives inline st cand) := by
  obtain ⟨hnd, hmem⟩ := h
  rw [importStep]
  by_cases hc : cand ∈ st.1
  · rw [if_pos hc]; exact ⟨hnd, hmem⟩
  · rw [if_neg hc]
    by_cases hni : cand ∉ natives ∧ cand ∉ inline
    · rw [if_pos hni]
      refine ⟨?_, ?_⟩
      · refine List.Nodup.append hnd (List.nodup_singleton cand) ?_
        intro x hx hxc
        rcases List.mem_singleton.mp hxc with rfl
        exact hc (hmem x hx).1
      · intro x hx
        rcases List.mem_append.mp hx with hl | hr
        · exact ⟨List.mem_cons_of_mem _ (hmem x hl).1, (hmem x hl).2⟩
        · rcases List.mem_singleton.mp hr with rfl
          exact ⟨List.mem_cons_self _ _, hni⟩
    · rw [if_neg hni]
      exact ⟨hnd, fun x hx => ⟨List.mem_cons_of_mem _ (hmem x hx).1, (hmem x hx).2⟩⟩

/-- Folding the import-collection step over a candidate list preserves
the invariant. -/
theorem importFold_inv (natives inline : List String) (cands : List String)
    (st : List String × List String) (h : importInv natives inline st) :
    importInv natives inline (cands.foldl (importStep natives inline) st) := by
  induction cands generalizing st with
  | nil => exact h
  | cons c cs ih => exact ih _ (importStep_inv natives inline st c h)

/-- Folding the import collection over all classes of a profile preserves
the invariant. -/
theorem importFoldClasses_inv (natives inline : List String) (classes : List ClassModel)
    (st : List String × List String) (h : importInv natives inline st) :
    importInv natives inline (classes.foldl
      (fun st k => (importCands k).foldl (importStep natives inline) st) st) := by
  induction classes generalizing st with
  | nil => exact h
  | cons k ks ih => exact ih _ (importFold_inv natives inline (importCands k) st h)

/-- Claim C4: for every compiled profile, the computed import list is
duplicate-free and sorted ascending, and contains no configured native
type name and no class name defined within the same profile. -/
theorem claim_C4_import_list_clean (cfg : Config) (classes : List ClassModel) :
    ((computeImports cfg classes).Nodup
      ∧ List.Sorted (fun a b : String => a ≤ b) (computeImports cfg classes))
    ∧ ∀ x ∈ computeImports cfg classes,
        x ∉ cfg.natives ∧ ∀ k ∈ classes, x ≠ k.className := by
  have hinv : importInv cfg.natives (classes.map (fun k => k.className))
      (classes.foldl (fun st k => (importCands k).foldl
        (importStep cfg.natives (classes.map (fun k => k.className))) st) ([], [])) := by
    apply importFoldClasses_inv
    exact ⟨List.nodup_nil, by simp⟩
  rw [computeImports]
  constructor
  · constructor
    · exact ((List.perm_insertionSort _ _).nodup_iff).mpr hinv.1
    · exact List.sorted_insertionSort _ _
  · intro x hx
    have hx2 := (List.mem_insertionSort _).mp hx
    have hprop := hinv.2 x hx2
    refine ⟨hprop.2.1, ?_⟩
    intro k hk hxk
    exact hprop.2.2 (hxk ▸ List.mem_map_of_mem (fun k => k.className) hk)

/-- Witness for claim C4: the lone import of a concrete one-class profile
is neither native nor locally defined. -/
theorem claim_C4_witness :
    ("Quantity" ∈ computeImports sampleCfg [classW])
    ∧ ("Quantity" ∉ sampleCfg.natives ∧ ∀ k ∈ [classW], "Quantity" ≠ k.className) :=
  ⟨by decide, (claim_C4_import_list_clean sampleCfg [classW]).2 "Quantity" (by decide)⟩

/-- Folding the one-type handler over a type list appends one built
property per type, in order. -/
theorem foldl_process_one_props (cfg : Config) (name : String) (ref : Option String)
    (short : String) (n_min : Nat) (n_max : String) (l : List String) (klass : ClassModel) :
    (l.foldl (fun k tp => process_elem_type_one cfg k name tp ref short n_min n_max) klass).properties
      = klass.properties
        ++ l.map (fun tp => mkProp cfg (choiceName name tp) tp ref short n_min n_max) := by
  induction l generalizing klass with
  | nil => simp
  | cons tp l ih =>
    simp only [List.foldl_cons, List.map_cons]
    rw [ih]
    simp [process_elem_type_one, appendProp]

/-- Claim C5: an element of wildcard type expands to exactly one property
per entry of the configured expansion list, in order, each carrying the
base property name and the resolved class of its expanded type.  The
first hypothesis restricts to configurations on which the source
terminates; the others say the base name is no choice name and not
reserved-remapped. -/
theorem claim_C5_wildcard_expansion (cfg : Config) (klass : ClassModel) (name : String)
    (ref : Option String) (short : String) (n_min : Nat) (n_max : String)
    (hstar : "*" ∉ cfg.starexpandtypes)
    (hx : pyContains name "[x]" = false)
    (hres : cfg.reservedmap.lookup name = none) :
    (process_elem_type cfg klass name "*" ref short n_min n_max).properties
      = klass.properties
        ++ cfg.starexpandtypes.map (fun tp => mkProp cfg name tp ref short n_min n_max)
    ∧ ∀ tp ∈ cfg.starexpandtypes,
        (mkProp cfg name tp ref short n_min n_max).name = name
        ∧ (mkProp cfg name tp ref short n_min n_max).className = lookupD cfg.classmap tp tp := by
  constructor
  · rw [process_elem_type, if_pos rfl, foldl_process_one_props]
    congr 1
    apply List.map_congr_left
    intro tp _
    simp [choiceName, hx]
  · intro tp _
    constructor
    · simp [mkProp, lookupD, hres]
    · simp [mkProp]

/-- Witness for claim C5 at the sample configuration. -/
theorem claim_C5_witness :
    ("*" ∉ sampleCfg.starexpandtypes ∧ pyContains "value" "[x]" = false
      ∧ sampleCfg.reservedmap.lookup "value" = none)
    ∧ ((process_elem_type sampleCfg classW "value" "*" none "s" 1 "*").properties
        = classW.properties
          ++ sampleCfg.starexpandtypes.map (fun tp => mkProp sampleCfg "value" tp none "s" 1 "*")
      ∧ ∀ tp ∈ sampleCfg.starexpandtypes,
          (mkProp sampleCfg "value" tp none "s" 1 "*").name = "value"
          ∧ (mkProp sampleCfg "value" tp none "s" 1 "*").className
            = lookupD sampleCfg.classmap tp tp) :=
  ⟨⟨by decide, by decide, rfl⟩,
    claim_C5_wildcard_expansion sampleCfg classW "value" none "s" 1 "*"
      (by decide) (by decide) rfl⟩

/-- Claim C6: a choice-named element (name carrying the placeholder
token) with resolved type `tp` emits the property whose name is the base
name with the placeholder replaced by the capitalized type, except that
the reference type `ResourceReference` is first mapped to the shorter
alias `Resource`; the last hypothesis says the resulting name has no
reserved-word remap. -/
theorem claim_C6_choice_naming (cfg : Config) (klass : ClassModel) (name tp : String)
    (ref : Option String) (short : String) (n_min : Nat) (n_max : String)
    (htp : tp ≠ "*")
    (hx : pyContains name "[x]" = true)
    (hres : cfg.reservedmap.lookup
      (pyReplace name "[x]" (capFirst (if tp = "ResourceReference" then "Resource" else tp))) = none) :
    (process_elem_type cfg klass name tp ref short n_min n_max).properties
      = klass.properties
        ++ [mkProp cfg (pyReplace name "[x]" (capFirst (if tp = "ResourceReference" then "Resource" else tp)))
              tp ref short n_min n_max]
    ∧ (mkProp cfg (pyReplace name "[x]" (capFirst (if tp = "ResourceReference" then "Resource" else tp)))
        tp ref short n_min n_max).name
      = pyReplace name "[x]" (capFirst (if tp = "ResourceReference" then "Resource" else tp)) := by
  constructor
  · rw [process_elem_type, if_neg htp]
    simp [process_elem_type_one, appendProp, choiceName, hx]
  · simp [mkProp, lookupD, hres]

/-- Witness for claim C6: the reference-typed choice element is renamed
through the `Resource` alias. -/
theorem claim_C6_witness :
    (("ResourceReference" : String) ≠ "*" ∧ pyContains "value[x]" "[x]" = true
      ∧ sampleCfg.reservedmap.lookup
          (pyReplace "value[x]" "[x]"
            (capFirst (if "ResourceReference" = "ResourceReference" then "Resource"
                       else "ResourceReference"))) = none)
    ∧ ((process_elem_type sampleCfg classW "value[x]" "ResourceReference" none "s" 0 "1").properties
        = classW.properties
          ++ [mkProp sampleCfg
                (pyReplace "value[x]" "[x]"
                  (capFirst (if "ResourceReference" = "ResourceReference" then "Resource"
                             else "ResourceReference")))
                "ResourceReference" none "s" 0 "1"]
      ∧ (mkProp sampleCfg
          (pyReplace "value[x]" "[x]"
            (capFirst (if "ResourceReference" = "ResourceReference" then "Resource"
                       else "ResourceReference")))
          "ResourceReference" none "s" 0 "1").name
        = pyReplace "value[x]" "[x]"
            (capFirst (if "ResourceReference" = "ResourceReference" then "Resource"
                       else "ResourceReference"))) :=
  ⟨⟨by decide, by decide, by decide⟩,
    claim_C6_choice_naming sampleCfg classW "value[x]" "ResourceReference" none "s" 0 "1"
      (by decide) (by decide) (by decide)⟩

/-- Claim C7: every property an element-type handling step appends has
its array flag set exactly when the maximum cardinality is the unbounded
marker, and its required flag set exactly when the minimum cardinality is
strictly positive — independent of the declared type (wildcard included);
the hypothesis restricts to configurations on which the source
terminates. -/
theorem claim_C7_cardinality_flags (cfg : Config) (klass : ClassModel) (name tp : String)
    (ref : Option String) (short : String) (n_min : Nat) (n_max : String)
    (hstar : "*" ∉ cfg.starexpandtypes) :
    ∀ p ∈ (process_elem_type cfg klass name tp ref short n_min n_max).properties,
      p ∈ klass.properties
      ∨ ((p.isArray = true ↔ n_max = "*") ∧ (p.nonoptional = true ↔ 0 < n_min)) := by
  intro p hp
  rw [process_elem_type] at hp
  by_cases h : tp = "*"
  · rw [if_pos h, foldl_process_one_props] at hp
    rcases List.mem_append.mp hp with hl | hr
    · exact Or.inl hl
    · right
      obtain ⟨tq, _, rfl⟩ := List.mem_map.mp hr
      constructor
      · simp [mkProp]
      · simp [mkProp, Nat.pos_iff_ne_zero]
  · rw [if_neg h] at hp
    simp only [process_elem_type_one, appendProp] at hp
    rcases List.mem_append.mp hp with hl | hr
    · exact Or.inl hl
    · right
      have hq : p = mkProp cfg (choiceName name tp) tp ref short n_min n_max := by
        simpa using hr
      subst hq
      constructor
      · simp [mkProp]
      · simp [mkProp, Nat.pos_iff_ne_zero]

/-- Witness for claim C7 at the sample configuration. -/
theorem claim_C7_witness :
    ("*" ∉ sampleCfg.starexpandtypes)
    ∧ ∀ p ∈ (process_elem_type sampleCfg classW "name" "string" none "s" 1 "*").properties,
        p ∈ classW.properties
        ∨ ((p.isArray = true ↔ ("*" : String) = "*") ∧ (p.nonoptional = true ↔ 0 < 1)) :=
  ⟨by decide,
    claim_C7_cardinality_flags sampleCfg classW "name" "string" none "s" 1 "*" (by decide)⟩

/-- The element loop stops with the renamed root class when the profile
is a named subclass: the first compiled element synthesizes the root
class, which is renamed to the profile name, re-parented onto the
declared type and marked, and no later element is compiled. -/
theorem processElems_subclass_break (cfg : Config) (prof : Profile) (main sup : String)
    (e : Element) (rest : List Element) (mapping : List (String × Nat))
    (classes : List ClassModel) (d : ElemDefinition)
    (hmain : e.path ≠ main)
    (hparts : pySplit e.path '.' = [e.path])
    (hskip : e.path ∉ skip_properties)
    (hd : e.definition = some d)
    (hnomap : mapping.lookup e.path = none) :
    processElems cfg prof main true sup (e :: rest) mapping classes
      = classes ++ [{ path := e.path
                      className := main
                      superclass := sup
                      short := prof.name
                      formal := prof.description
                      properties := []
                      hasNonoptional := false
                      resourceName := none
                      is_subclass := true }] := by
  rw [processElems]
  rw [hparts]
  simp [hskip, hd, hnomap, hmain, parse_elem]

/-- Claim C8: a profile whose structure carries an explicit name distinct
from its declared type compiles to exactly one class — the synthesized
root class renamed to the profile name, with its superclass set to the
declared type and the named-subclass marker set — and no element after
the root is compiled. -/
theorem claim_C8_named_subclass (cfg : Config) (prof : Profile) (s : StructureEntry)
    (ss : List StructureEntry) (nm : String) (e : Element) (es : List Element)
    (d : ElemDefinition)
    (hrt : prof.resourceType = "Profile")
    (hs : prof.structureArr = s :: ss)
    (hn : s.name = some nm)
    (hne : nm ≠ s.type)
    (he : s.elements = e :: es)
    (hp : e.path = s.type)
    (hparts : pySplit e.path '.' = [e.path])
    (hskip : e.path ∉ skip_properties)
    (hd : e.definition = some d) :
    process_profile cfg prof = Except.ok (some
      { main := nm
        classes := [{ path := e.path
                      className := nm
                      superclass := s.type
                      short := prof.name
                      formal := prof.description
                      properties := []
                      hasNonoptional := false
                      resourceName := none
                      is_subclass := true }]
        imports := computeImports cfg
          [{ path := e.path
             className := nm
             superclass := s.type
             short := prof.name
             formal := prof.description
             properties := []
             hasNonoptional := false
             resourceName := none
             is_subclass := true }]
        search_params := (collectSearchParams cfg s.searchParam).1
        supported := (collectSearchParams cfg s.searchParam).2 }) := by
  have hmain : e.path ≠ nm := by
    rw [hp]; exact fun hh => hne hh.symm
  rw [process_profile, if_neg (by simp [hrt]), hs]
  simp only [hn, Option.getD_some]
  rw [he]
  have hdec : decide (nm ≠ s.type) = true := by simp [hne]
  rw [hdec]
  rw [processElems_subclass_break cfg prof nm s.type e es [] [] d hmain hparts hskip hd rfl]
  simp [hne]

/-- Witness for claim C8 at the concrete named-subclass profile. -/
theorem claim_C8_witness :
    (("Age" : String) ≠ structC8.type)
    ∧ process_profile sampleCfg profC8 = Except.ok (some
        { main := "Age"
          classes := [{ path := elemC8root.path
                        className := "Age"
                        superclass := structC8.type
                        short := profC8.name
                        formal := profC8.description
                        properties := []
                        hasNonoptional := false
                        resourceName := none
                        is_subclass := true }]
          imports := computeImports sampleCfg
            [{ path := elemC8root.path
               className := "Age"
               superclass := structC8.type
               short := profC8.name
               formal := profC8.description
               properties := []
               hasNonoptional := false
               resourceName := none
               is_subclass := true }]
          search_params := (collectSearchParams sampleCfg structC8.searchParam).1
          supported := (collectSearchParams sampleCfg structC8.searchParam).2 }) :=
  ⟨by decide,
    claim_C8_named_subclass sampleCfg profC8 structC8 [] "Age" elemC8root [elemC8units]
      defEmpty rfl rfl rfl (by decide) rfl rfl (by decide) (by decide) rfl⟩

/-- The merge loop only ever appends to the extensions table. -/
theorem searchFold_ext_mono (cfg : Config) (l : List String)
    (st : List SearchExtension × List String) (e : SearchExtension) (h : e ∈ st.1) :
    e ∈ (l.foldl (searchStepOk cfg) st).1 := by
  induction l generalizing st with
  | nil => exact h
  | cons p ps ih =>
    apply ih
    rw [searchStepOk]
    cases hsp : pySplit p '|' with
    | nil => exact h
    | cons a t =>
      cases t with
      | nil => exact h
      | cons b t2 =>
        cases t2 with
        | nil => exact h
        | cons c t3 =>
          cases t3 with
          | nil => simpa using Or.inl h
          | cons dd t4 => exact h

/-- The merge loop never removes a flagged collision. -/
theorem searchFold_dupes_mono (cfg : Config) (l : List String)
    (st : List SearchExtension × List String) (x : String) (h : x ∈ st.2) :
    x ∈ (l.foldl (searchStepOk cfg) st).2 := by
  induction l generalizing st with
  | nil => exact h
  | cons p ps ih =>
    apply ih
    rw [searchStepOk]
    cases hsp : pySplit p '|' with
    | nil => exact h
    | cons a t =>
      cases t with
      | nil => exact h
      | cons b t2 =>
        cases t2 with
        | nil => exact h
        | cons c t3 =>
          cases t3 with
          | nil =>
            simp only []
            by_cases hany : st.1.any (fun dd => lookupD cfg.reservedmap a a == dd.name)
            · simp only [hany, if_pos, insertSet]
              by_cases hx : lookupD cfg.reservedmap a a ∈ st.2
              · simpa [hx] using h
              · simp only [hx, if_neg, ite_false]
                exact List.mem_append_left _ h
            · simpa [hany] using h
          | cons dd t4 => exact h

/-- Inserting into a set always leaves the inserted element a member. -/
theorem insertSet_mem_self (x : String) (l : List String) : x ∈ insertSet x l := by
  rw [insertSet]
  by_cases h : x ∈ l
  · simpa [h]
  · simp [h]

/-- Set insertion preserves duplicate-freedom. -/
theorem insertSet_nodup (x : String) (l : List String) (h : l.Nodup) :
    (insertSet x l).Nodup := by
  rw [insertSet]
  by_cases hx : x ∈ l
  · simpa [hx]
  · simp only [hx, if_neg, ite_false]
    exact List.Nodup.append h (List.nodup_singleton x)
      (fun a ha hax => hx ((List.mem_singleton.mp hax) ▸ ha))

/-- One merge step preserves duplicate-freedom of the collision set. -/
theorem searchStepOk_dupes_nodup (cfg : Config) (st : List SearchExtension × List String)
    (q : String) (h : st.2.Nodup) : (searchStepOk cfg st q).2.Nodup := by
  rw [searchStepOk]
  cases hsp : pySplit q '|' with
  | nil => exact h
  | cons a t =>
    cases t with
    | nil => exact h
    | cons b t2 =>
      cases t2 with
      | nil => exact h
      | cons c t3 =>
        cases t3 with
        | nil =>
          simp only []
          by_cases hany : st.1.any (fun dd => lookupD cfg.reservedmap a a == dd.name)
          · simp only [hany, if_pos, ite_true]
            exact insertSet_nodup _ _ h
          · simpa [hany]
        | cons dd t4 => exact h

/-- The merge fold preserves duplicate-freedom of the collision set. -/
theorem searchFold_dupes_nodup (cfg : Config) (l : List String)
    (st : List SearchExtension × List String) (h : st.2.Nodup) :
    (l.foldl (searchStepOk cfg) st).2.Nodup := by
  induction l generalizing st with
  | nil => exact h
  | cons q qs ih => exact ih _ (searchStepOk_dupes_nodup cfg st q h)

/-- Every well-formed encoded parameter of the iterated list contributes
its decoded entry to the merged table. -/
theorem searchFold_adds_entry (cfg : Config) (l : List String)
    (st : List SearchExtension × List String) (p n o t : String)
    (hp : p ∈ l) (hsp : pySplit p '|' = [n, o, t]) :
    ({ name := lookupD cfg.reservedmap n n, original := o, typ := t } : SearchExtension)
      ∈ (l.foldl (searchStepOk cfg) st).1 := by
  induction l generalizing st with
  | nil => cases hp
  | cons q qs ih =>
    rcases List.mem_cons.mp hp with rfl | hq
    · rw [List.foldl_cons]
      apply searchFold_ext_mono
      rw [searchStepOk.eq_def, hsp]
      simp
    · exact ih _ hq

/-- One merge step keeps every already-merged entry. -/
theorem searchStepOk_ext_mono_one (cfg : Config) (st : List SearchExtension × List String)
    (q : String) (e : SearchExtension) (h : e ∈ st.1) : e ∈ (searchStepOk cfg st q).1 := by
  rw [searchStepOk]
  cases hsp : pySplit q '|' with
  | nil => exact h
  | cons a t =>
    cases t with
    | nil => exact h
    | cons b t2 =>
      cases t2 with
      | nil => exact h
      | cons c t3 =>
        cases t3 with
        | nil => simpa using Or.inl h
        | cons dd t4 => exact h

/-- When the table already holds an entry with final name `f`, merging a
later parameter of final name `f` flags `f` as a collision. -/
theorem searchFold_flags_dupe (cfg : Config) (l : List String)
    (st : List SearchExtension × List String) (p n o t f : String)
    (hex : ∃ e ∈ st.1, e.name = f)
    (hp : p ∈ l) (hsp : pySplit p '|' = [n, o, t])
    (hf : lookupD cfg.reservedmap n n = f) :
    f ∈ (l.foldl (searchStepOk cfg) st).2 := by
  induction l generalizing st with
  | nil => cases hp
  | cons q qs ih =>
    rcases List.mem_cons.mp hp with rfl | hq
    · rw [List.foldl_cons]
      apply searchFold_dupes_mono
      rw [searchStepOk.eq_def, hsp]
      obtain ⟨e, he, hen⟩ := hex
      have hany : (st.1.any fun dd => f == dd.name) = true := by
        apply List.any_eq_true.mpr
        exact ⟨e, he, by simp [hen]⟩
      simp only [hf, hany, if_pos, ite_true]
      exact insertSet_mem_self f st.2
    · obtain ⟨e, he, hen⟩ := hex
      exact ih _ ⟨e, searchStepOk_ext_mono_one cfg st q e he, hen⟩ hq

/-- Two distinct members of a list split it as an earlier one and a later
one. -/
theorem two_mem_split (l : List String) (a b : String) (ha : a ∈ l) (hb : b ∈ l)
    (hne : a ≠ b) :
    ∃ l1 l2 x y, l = l1 ++ x :: l2 ∧ y ∈ l2
      ∧ ((x = a ∧ y = b) ∨ (x = b ∧ y = a)) := by
  induction l with
  | nil => cases ha
  | cons c t ih =>
    by_cases hca : c = a
    · subst hca
      have hbt : b ∈ t := by
        rcases List.mem_cons.mp hb with rfl | hh
        · exact absurd rfl hne.symm
        · exact hh
      exact ⟨[], t, c, b, rfl, hbt, Or.inl ⟨rfl, rfl⟩⟩
    · by_cases hcb : c = b
      · subst hcb
        have hat : a ∈ t := by
          rcases List.mem_cons.mp ha with rfl | hh
          · exact absurd rfl hne
          · exact hh
        exact ⟨[], t, c, a, rfl, hat, Or.inr ⟨rfl, rfl⟩⟩
      · have hat : a ∈ t := by
          rcases List.mem_cons.mp ha with rfl | hh
          · exact absurd rfl hca
          · exact hh
        have hbt : b ∈ t := by
          rcases List.mem_cons.mp hb with rfl | hh
          · exact absurd rfl hcb
          · exact hh
        obtain ⟨l1, l2, x, y, hl, hy, hxy⟩ := ih hat hbt
        exact ⟨c :: l1, l2, x, y, by rw [hl]; rfl, hy, hxy⟩

/-- A malformed entry makes one merge step raise the ValueError. -/
theorem searchStep_error_of_bad (cfg : Config) (st : List SearchExtension × List String)
    (p : String) (hbad : (pySplit p '|').length ≠ 3) :
    searchStep cfg st p
      = Except.error "ValueError: param does not unpack into name, orig, typ" := by
  rw [searchStep.eq_def]
  cases hsp : pySplit p '|' with
  | nil => rfl
  | cons a t =>
    cases t with
    | nil => rfl
    | cons b t2 =>
      cases t2 with
      | nil => rfl
      | cons c t3 =>
        cases t3 with
        | nil => rw [hsp] at hbad; simp at hbad
        | cons dd t4 => rfl

/-- A well-formed entry makes one merge step succeed with the success
path. -/
theorem searchStep_ok_of_len3 (cfg : Config) (st : List SearchExtension × List String)
    (p : String) (h : (pySplit p '|').length = 3) :
    searchStep cfg st p = Except.ok (searchStepOk cfg st p) := by
  rw [searchStep.eq_def, searchStepOk.eq_def]
  cases hsp : pySplit p '|' with
  | nil => rw [hsp] at h; simp at h
  | cons a t =>
    cases t with
    | nil => rw [hsp] at h; simp at h
    | cons b t2 =>
      cases t2 with
      | nil => rw [hsp] at h; simp at h
      | cons c t3 =>
        cases t3 with
        | nil => rfl
        | cons dd t4 => rw [hsp] at h; simp at h

/-- On a set whose entries all decode into three parts, the monadic merge
succeeds and computes the pure success-path fold. -/
theorem foldlM_searchStep_ok (cfg : Config) (l : List String)
    (st : List SearchExtension × List String)
    (h : ∀ p ∈ l, (pySplit p '|').length = 3) :
    l.foldlM (searchStep cfg) st = Except.ok (l.foldl (searchStepOk cfg) st) := by
  induction l generalizing st with
  | nil => rfl
  | cons q qs ih =>
    rw [List.foldlM_cons, searchStep_ok_of_len3 cfg st q (h q (List.mem_cons_self q qs))]
    rw [List.foldl_cons]
    have hbind : (Except.ok (searchStepOk cfg st q) >>=
        fun st2 => qs.foldlM (searchStep cfg) st2)
      = qs.foldlM (searchStep cfg) (searchStepOk cfg st q) := rfl
    rw [hbind]
    exact ih _ (fun p hp => h p (List.mem_cons_of_mem q hp))

/-- A malformed entry anywhere in the iterated list makes the monadic
merge abort with the ValueError. -/
theorem foldlM_searchStep_error (cfg : Config) (l : List String)
    (st : List SearchExtension × List String) (p : String)
    (hp : p ∈ l) (hbad : (pySplit p '|').length ≠ 3) :
    l.foldlM (searchStep cfg) st
      = Except.error "ValueError: param does not unpack into name, orig, typ" := by
  induction l generalizing st with
  | nil => cases hp
  | cons q qs ih =>
    rw [List.foldlM_cons]
    rcases List.mem_cons.mp hp with rfl | hq
    · rw [searchStep_error_of_bad cfg st p hbad]
      rfl
    · by_cases hq3 : (pySplit q '|').length = 3
      · rw [searchStep_ok_of_len3 cfg st q hq3]
        have hbind : (Except.ok (searchStepOk cfg st q) >>=
            fun st2 => qs.foldlM (searchStep cfg) st2)
          = qs.foldlM (searchStep cfg) (searchStepOk cfg st q) := rfl
        rw [hbind]
        exact ih _ hq
      · rw [searchStep_error_of_bad cfg st q hq3]
        rfl

/-- Claim C9 counterexample: the declarations with original names `a|b`
and `ab` differ in their originals yet share the normalized name `ab`
(normalization strips the separator); the per-profile encoding keeps the
raw original, so the merged set holds a four-part entry and the global
merge raises a ValueError instead of completing. -/
theorem claim_C9_counterexample_merge_crashes :
    (collectSearchParams sampleCfg [{ name := "a|b", typ := "string" },
                                    { name := "ab", typ := "token" }]).1
      = ["ab|a|b|string", "ab|ab|token"]
    ∧ process_search sampleCfg ["ab|a|b|string", "ab|ab|token"]
      = Except.error "ValueError: param does not unpack into name, orig, typ" := by
  constructor
  · rfl
  · rw [process_search]
    apply foldlM_searchStep_error sampleCfg _ _ "ab|a|b|string"
    · exact (List.mem_insertionSort _).mpr (by decide)
    · decide

/-- Claim C9 as amended: on a merged set whose encoded entries all decode
into exactly three components (original names and types free of the
separator), two declarations with different original names but the same
normalized name make the global merge complete without error, record
that final name in the collision set exactly once, and keep one entry
per original name in the merged table; an entry that does not decode
instead aborts the merge with a ValueError (see the counterexample). -/
theorem claim_C9_search_collision (cfg : Config) (params : List String) (p1 p2 : String)
    (n o1 o2 t1 t2 : String)
    (hwf : ∀ p ∈ params, (pySplit p '|').length = 3)
    (h1 : p1 ∈ params) (h2 : p2 ∈ params)
    (hsp1 : pySplit p1 '|' = [n, o1, t1]) (hsp2 : pySplit p2 '|' = [n, o2, t2])
    (horig : o1 ≠ o2) :
    ∃ res, process_search cfg params = Except.ok res
      ∧ res.2.count (lookupD cfg.reservedmap n n) = 1
      ∧ (∃ e ∈ res.1, e.original = o1)
      ∧ (∃ e ∈ res.1, e.original = o2) := by
  have hne : p1 ≠ p2 := by
    intro hh
    rw [hh, hsp2] at hsp1
    injection hsp1 with hA hB
    injection hB with hC hD
    exact horig hC.symm
  have h1s : p1 ∈ List.insertionSort (fun a b : String => a ≤ b) params :=
    (List.mem_insertionSort _).mpr h1
  have h2s : p2 ∈ List.insertionSort (fun a b : String => a ≤ b) params :=
    (List.mem_insertionSort _).mpr h2
  have hok : process_search cfg params
      = Except.ok ((List.insertionSort (fun a b : String => a ≤ b) params).foldl
          (searchStepOk cfg) ([], [])) := by
    rw [process_search]
    exact foldlM_searchStep_ok cfg _ _
      (fun p hp => hwf p ((List.mem_insertionSort _).mp hp))
  refine ⟨_, hok, ?_, ?_, ?_⟩
  · obtain ⟨l1, l2, x, y, hL, hy, hxy⟩ := two_mem_split _ p1 p2 h1s h2s hne
    have hf : lookupD cfg.reservedmap n n
        ∈ ((List.insertionSort (fun a b : String => a ≤ b) params).foldl
            (searchStepOk cfg) ([], [])).2 := by
      rw [hL, List.foldl_append, List.foldl_cons]
      rcases hxy with ⟨rfl, rfl⟩ | ⟨rfl, rfl⟩
      · apply searchFold_flags_dupe cfg l2 _ _ n o2 t2 _ _ hy hsp2 rfl
        rw [searchStepOk.eq_def, hsp1]
        refine ⟨{ name := lookupD cfg.reservedmap n n, original := o1, typ := t1 }, ?_, rfl⟩
        simp
      · apply searchFold_flags_dupe cfg l2 _ _ n o1 t1 _ _ hy hsp1 rfl
        rw [searchStepOk.eq_def, hsp2]
        refine ⟨{ name := lookupD cfg.reservedmap n n, original := o2, typ := t2 }, ?_, rfl⟩
        simp
    apply List.count_eq_one_of_mem
    · exact searchFold_dupes_nodup cfg _ _ List.nodup_nil
    · exact hf
  · refine ⟨{ name := lookupD cfg.reservedmap n n, original := o1, typ := t1 }, ?_, rfl⟩
    exact searchFold_adds_entry cfg _ _ p1 n o1 t1 h1s hsp1
  · refine ⟨{ name := lookupD cfg.reservedmap n n, original := o2, typ := t2 }, ?_, rfl⟩
    exact searchFold_adds_entry cfg _ _ p2 n o2 t2 h2s hsp2

/-- Witness for the amended claim C9 at two concrete colliding
declarations whose entries both decode into three components. -/
theorem claim_C9_witness :
    ((∀ p ∈ (["name|a|string", "name|b|token"] : List String),
        (pySplit p '|').length = 3)
      ∧ pySplit "name|a|string" '|' = ["name", "a", "string"]
      ∧ pySplit "name|b|token" '|' = ["name", "b", "token"]
      ∧ ("a" : String) ≠ "b")
    ∧ ∃ res, process_search sampleCfg ["name|a|string", "name|b|token"] = Except.ok res
        ∧ res.2.count (lookupD sampleCfg.reservedmap "name" "name") = 1
        ∧ (∃ e ∈ res.1, e.original = "a")
        ∧ (∃ e ∈ res.1, e.original = "b") :=
  ⟨⟨by decide, rfl, rfl, by decide⟩,
    claim_C9_search_collision sampleCfg ["name|a|string", "name|b|token"]
      "name|a|string" "name|b|token" "name" "a" "b" "string" "token"
      (by decide) (by decide) (by decide) rfl rfl (by decide)⟩


/-- A Boolean-ok computation carries an ok value. -/
theorem isOkb_ok {α : Type} (e : Except String α) (h : isOkb e = true) :
    ∃ x, e = Except.ok x := by
  cases e with
  | ok x => exact ⟨x, rfl⟩
  | error m => simp [isOkb] at h

mutual

/-- Handling one matched property value succeeds on every null-free
value. -/
theorem handle_ok (cfg : Config) (classes : List (String × ClassModel)) (path : String)
    (v : JVal) (klass : String) (h : noNull v = true) :
    isOkb (handle_unittest_property cfg classes path v klass) = true := by
  cases v with
  | null => simp [noNull] at h
  | obj fields =>
    rw [handle_unittest_property]
    cases hc : classes.lookup (lookupD cfg.subclassmap klass klass) with
    | none => rfl
    | some sub =>
      have hnf : noNullFields fields = true := by rwa [noNull] at h
      exact process_ok cfg classes fields sub (some path) hnf
  | str s => rw [handle_unittest_property]; rfl
  | bool b => simp [handle_unittest_property, isOkb]
  | num i => simp [handle_unittest_property, isOkb]
  | arr xs => simp [handle_unittest_property, isOkb]

/-- Walking one object level succeeds on null-free field values. -/
theorem process_ok (cfg : Config) (classes : List (String × ClassModel))
    (fields : List (String × JVal)) (klass : ClassModel) (pfx : Option String)
    (h : noNullFields fields = true) :
    isOkb (process_unittest_properties cfg classes fields klass pfx) = true := by
  cases fields with
  | nil => rw [process_unittest_properties.eq_1]; rfl
  | cons kv rest =>
    obtain ⟨key, val⟩ := kv
    rw [noNullFields] at h
    simp only [Bool.and_eq_true] at h
    have hv : noNull val = true := h.1
    have hr : noNullFields rest = true := h.2
    obtain ⟨y, hy⟩ := isOkb_ok _ (process_ok cfg classes rest klass pfx hr)
    cases pfx with
    | none =>
      rw [process_unittest_properties.eq_3]
      cases hp : propsLookup klass key with
      | none => exact process_ok cfg classes rest klass none hr
      | some prop =>
        cases val with
        | null => simp [noNull] at hv
        | arr xs =>
          obtain ⟨x, hx⟩ := isOkb_ok _
            (harr_ok cfg classes key xs 0 prop.className (by rwa [noNull] at hv))
          simp [hx, hy, Bind.bind, Except.bind, isOkb, Pure.pure, Except.pure]
        | obj fs =>
          obtain ⟨x, hx⟩ := isOkb_ok _
            (handle_ok cfg classes (cfg.fmtPrepare key) (JVal.obj fs) prop.className hv)
          simp [hx, hy, Bind.bind, Except.bind, isOkb, Pure.pure, Except.pure]
        | str s =>
          obtain ⟨x, hx⟩ := isOkb_ok _
            (handle_ok cfg classes (cfg.fmtPrepare key) (JVal.str s) prop.className hv)
          simp [hx, hy, Bind.bind, Except.bind, isOkb, Pure.pure, Except.pure]
        | bool b =>
          obtain ⟨x, hx⟩ := isOkb_ok _
            (handle_ok cfg classes (cfg.fmtPrepare key) (JVal.bool b) prop.className hv)
          simp [hx, hy, Bind.bind, Except.bind, isOkb, Pure.pure, Except.pure]
        | num i =>
          obtain ⟨x, hx⟩ := isOkb_ok _
            (handle_ok cfg classes (cfg.fmtPrepare key) (JVal.num i) prop.className hv)
          simp [hx, hy, Bind.bind, Except.bind, isOkb, Pure.pure, Except.pure]
    | some p =>
      rw [process_unittest_properties.eq_2]
      cases hp : propsLookup klass key with
      | none => exact process_ok cfg classes rest klass (some p) hr
      | some prop =>
        cases val with
        | null => simp [noNull] at hv
        | arr xs =>
          obtain ⟨x, hx⟩ := isOkb_ok _
            (harr_ok cfg classes (cfg.fmtKey p key) xs 0 prop.className (by rwa [noNull] at hv))
          simp [hx, hy, Bind.bind, Except.bind, isOkb, Pure.pure, Except.pure]
        | obj fs =>
          obtain ⟨x, hx⟩ := isOkb_ok _
            (handle_ok cfg classes (cfg.fmtPrepare (cfg.fmtKey p key)) (JVal.obj fs)
              prop.className hv)
          simp [hx, hy, Bind.bind, Except.bind, isOkb, Pure.pure, Except.pure]
        | str s =>
          obtain ⟨x, hx⟩ := isOkb_ok _
            (handle_ok cfg classes (cfg.fmtPrepare (cfg.fmtKey p key)) (JVal.str s)
              prop.className hv)
          simp [hx, hy, Bind.bind, Except.bind, isOkb, Pure.pure, Except.pure]
        | bool b =>
          obtain ⟨x, hx⟩ := isOkb_ok _
            (handle_ok cfg classes (cfg.fmtPrepare (cfg.fmtKey p key)) (JVal.bool b)
              prop.className hv)
          simp [hx, hy, Bind.bind, Except.bind, isOkb, Pure.pure, Except.pure]
        | num i =>
          obtain ⟨x, hx⟩ := isOkb_ok _
            (handle_ok cfg classes (cfg.fmtPrepare (cfg.fmtKey p key)) (JVal.num i)
              prop.className hv)
          simp [hx, hy, Bind.bind, Except.bind, isOkb, Pure.pure, Except.pure]

/-- Walking an array-valued property succeeds on null-free elements. -/
theorem harr_ok (cfg : Config) (classes : List (String × ClassModel)) (path : String)
    (xs : List JVal) (i : Nat) (klass : String) (h : noNullList xs = true) :
    isOkb (handle_unittest_array cfg classes path xs i klass) = true := by
  cases xs with
  | nil => rw [handle_unittest_array]; rfl
  | cons v vs =>
    rw [noNullList] at h
    simp only [Bool.and_eq_true] at h
    have hv : noNull v = true := h.1
    have hvs : noNullList vs = true := h.2
    rw [handle_unittest_array]
    obtain ⟨x, hx⟩ := isOkb_ok _ (handle_ok cfg classes (cfg.fmtIndex path i) v klass hv)
    obtain ⟨y, hy⟩ := isOkb_ok _ (harr_ok cfg classes path vs (i + 1) klass hvs)
    simp [hx, hy, Bind.bind, Except.bind, isOkb, Pure.pure, Except.pure]

end

/-- Filtering a null-free field list keeps it null-free. -/
theorem noNullFields_filter (doc : List (String × JVal)) (p : String × JVal → Bool)
    (h : noNullFields doc = true) : noNullFields (doc.filter p) = true := by
  induction doc with
  | nil => simpa using h
  | cons kv rest ih =>
    rw [noNullFields] at h
    simp only [Bool.and_eq_true] at h
    rw [List.filter]
    cases hpa : p kv with
    | true =>
      rw [noNullFields]
      simp [h.1, ih h.2]
    | false => exact ih h.2

/-- Claim C2 as amended: the example conformance matcher completes and
returns an assertion list on every document that carries a discriminator
and contains no null value; a null value reaching a matched property
instead fails the `value is not None` assertion and aborts the run (see
the counterexample). -/
theorem claim_C2_matcher_total_without_nulls (cfg : Config)
    (classes : List (String × ClassModel)) (doc : List (String × JVal))
    (hdisc : (jvalLookup doc "resourceType").isSome = true)
    (hnn : noNullFields doc = true) :
    isOkb (process_unittest cfg classes doc) = true := by
  rw [process_unittest]
  cases hv : jvalLookup doc "resourceType" with
  | none => rw [hv] at hdisc; simp at hdisc
  | some v =>
    cases v with
    | str cn =>
      cases hc : classes.lookup cn with
      | none => simp [hc, isOkb]
      | some klass =>
        have hok := process_ok cfg classes (doc.filter (fun kv => kv.1 ≠ "resourceType"))
          klass none (noNullFields_filter _ _ hnn)
        obtain ⟨x, hx⟩ := isOkb_ok _ hok
        simp only [ne_eq, decide_not] at hx
        simp [hc, hx, Bind.bind, Except.bind, isOkb, Pure.pure, Except.pure]
    | null => rfl
    | bool b => rfl
    | num i => rfl
    | obj fs => rfl
    | arr xs => rfl

/-- Claim C2 counterexample: a document whose matched property `a` holds
a JSON null makes the matcher abort with an assertion failure instead of
returning an assertion list. -/
theorem claim_C2_counterexample_null_aborts :
    process_unittest sampleCfg regX docNull
      = Except.error "assert failed: value is not None" := by
  simp [process_unittest, jvalLookup, docNull, process_unittest_properties,
        handle_unittest_property, propsLookup, regX, classX, Bind.bind, Except.bind]

/-- Witness for the amended claim C2 at a concrete null-free document. -/
theorem claim_C2_witness :
    ((jvalLookup docPlain "resourceType").isSome = true ∧ noNullFields docPlain = true)
    ∧ isOkb (process_unittest sampleCfg regX docPlain) = true :=
  ⟨⟨rfl, by simp [docPlain, noNullFields, noNull]⟩,
    claim_C2_matcher_total_without_nulls sampleCfg regX docPlain rfl
      (by simp [docPlain, noNullFields, noNull])⟩
